import Mathlib

/-!
Verification of the star-router route-matching engine: a shallow embedding of
the path-template parser (src/path.rs), the prefix tree (src/tree.rs) and the
router facade (src/router.rs), with theorems settling the specified behavior.

Modelling conventions:
* `http::Method` is an opaque comparable token in the source; it is modelled
  as `String`.
* The internal hash map wrapper (src/map.rs) only needs standard associative
  semantics; it is modelled as an association list with insert-replace
  semantics (`Map.insert`, `Map.get`, `Map.contains_key`).  Its `optimize`
  (Rust `shrink_to_fit`) reclaims capacity only, so on the model it returns
  the map unchanged.
* Rust functions that can panic are modelled with `Option`: a `none` result
  means the Rust code aborts with a panic instead of returning a value.
  The one reachable panic is the byte slice `&part[..1]` in `Path::parse`,
  which is out of bounds on `""` and not on a character boundary whenever the
  first character of the piece is encoded with more than one UTF-8 byte
  (code point at least 128).
* In-place mutation that can be abandoned halfway by an early error return
  (`Tree::add` / `Node::ensure`) is modelled by returning the mutated
  structure together with the error flag.
-/

namespace StarRouter

/-- HTTP method token (`http::Method`), modelled as an opaque string. -/
abbrev Method : Type := String

/-- Association-list model of the `Map` wrapper from src/map.rs. -/
abbrev Map (K V : Type) : Type := List (K × V)

/-- Lookup by key (`Map::get`): first entry whose key matches. -/
def Map.get {K V : Type} [DecidableEq K] : Map K V → K → Option V
  | [], _ => none
  | (k', v) :: rest, k => if k = k' then some v else Map.get rest k

/-- Insert-or-replace (`Map::insert`), keeping the position of an existing key. -/
def Map.insert {K V : Type} [DecidableEq K] : Map K V → K → V → Map K V
  | [], k, v => [(k, v)]
  | (k', v') :: rest, k, v =>
    if k = k' then (k, v) :: rest else (k', v') :: Map.insert rest k v

/-- Key-membership test (`Map::contains_key`). -/
def Map.contains_key {K V : Type} [DecidableEq K] (m : Map K V) (k : K) : Bool :=
  (Map.get m k).isSome

/-- Capacity compaction (`Map::optimize`, Rust `shrink_to_fit`): the model has
no capacity, so the contents are returned unchanged. -/
def Map.optimize {K V : Type} (m : Map K V) : Map K V := m

/-- Route parameter map (`RouteParameter` from src/route_match.rs). -/
abbrev RouteParameter : Type := Map String String

/-- Path separator constant (`PATH_SEPARATOR` from src/tree.rs). -/
def PATH_SEPARATOR : String := "/"

/-- The empty string, named so that literals stay inside definitions. -/
def emptyString : String := ""

/-- Splitting on the separator character, as Rust's `str::split('/')`:
every separator occurrence produces a boundary, so leading, trailing and
repeated separators yield empty pieces. -/
def splitOnSep : List Char → List Char → List String
  | [], acc => [String.mk acc.reverse]
  | c :: rest, acc =>
    if c = '/' then String.mk acc.reverse :: splitOnSep rest []
    else splitOnSep rest (c :: acc)

/-- Splitting a raw path into non-empty pieces, as both `Path::parse` and
`Tree::lookup` do: split on the separator, discard empty pieces. -/
def splitPieces (path : String) : List String :=
  (splitOnSep path.data []).filter (fun p => p != emptyString)

/-- Joining rendered pieces with the separator, as Rust's `join("/")`. -/
def joinSep : List String → String
  | [] => emptyString
  | [s] => s
  | s :: rest => s ++ PATH_SEPARATOR ++ joinSep rest

/-- The byte slice `&name[1..]` used on segment names.  Wherever the source
reaches it the first character of `name` is a one-byte sigil (`:` or `*`) or a
one-byte static character, so the byte slice equals dropping the first
character. -/
def dropSigil (s : String) : String := String.mk (s.data.drop 1)

/-- Path segment (`Item` from src/path.rs).  The stored name is the raw piece
including its sigil, exactly as `Path::parse` stores it. -/
inductive Item : Type where
  | Static (name : String) : Item
  | Parameter (name : String) : Item
  | Wildcard (name : String) : Item
deriving DecidableEq

/-- Path-level errors (`PathError` from src/path.rs). -/
inductive PathError : Type where
  | NameMustNotBeEmpty : PathError
  | ParameterNotFound (parameter : String) : PathError
  | WildcardItemMustBeLast : PathError
deriving DecidableEq

/-- Raw stored name of a segment (`Item::get_name`), sigil included. -/
def Item.get_name : Item → String
  | .Static name => name
  | .Parameter name => name
  | .Wildcard name => name

/-- Static-segment test (`Item::is_static`). -/
def Item.is_static : Item → Bool
  | .Static _ => true
  | _ => false

/-- Wildcard-segment test (`Item::is_wildcard`). -/
def Item.is_wildcard : Item → Bool
  | .Wildcard _ => true
  | _ => false

/-- Segment validation (`Item::validate`): rejects an empty raw name.  Note
that the raw name keeps its sigil, so a piece consisting of a sigil alone has
a non-empty raw name. -/
def Item.validate (it : Item) : Except PathError Unit :=
  if Item.get_name it = emptyString then .error .NameMustNotBeEmpty else .ok ()

/-- Classification of one piece by `Path::parse`: the byte slice `&part[..1]`
is compared with `":"` and `"*"`.  The slice panics (modelled as `none`) when
the piece is empty or its first character occupies more than one byte. -/
def classifyPiece (part : String) : Option Item :=
  match part.data with
  | [] => none
  | c :: _ =>
    if 128 ≤ c.toNat then none
    else if c = ':' then some (.Parameter part)
    else if c = '*' then some (.Wildcard part)
    else some (.Static part)

/-- Classification of every piece in order; `none` as soon as one panics. -/
def classifyAll : List String → Option (List Item)
  | [] => some []
  | p :: rest =>
    match classifyPiece p with
    | none => none
    | some it =>
      match classifyAll rest with
      | none => none
      | some items => some (it :: items)

/-- Parsed path (`Path` from src/path.rs): a method and ordered segments. -/
structure Path : Type where
  method : Method
  items : List Item
deriving DecidableEq

/-- Validation walk of `Path::validate`: each item is validated, then a
wildcard anywhere but at index `len - 1` is rejected. -/
def Path.validateAux (len : Nat) : List Item → Nat → Except PathError Unit
  | [], _ => .ok ()
  | it :: rest, i =>
    match Item.validate it with
    | .error e => .error e
    | .ok _ =>
      if Item.is_wildcard it = true ∧ i ≠ len - 1 then .error .WildcardItemMustBeLast
      else Path.validateAux len rest (i + 1)

/-- Structural validation (`Path::validate`). -/
def Path.validate (p : Path) : Except PathError Unit :=
  Path.validateAux p.items.length p.items 0

/-- Template parsing (`Path::parse`): split on `/`, discard empty pieces,
classify each piece by its first byte, then validate.  A `none` result models
the byte-slice panic on a piece whose first character is multi-byte. -/
def Path.parse (method : Method) (path : String) : Option (Except PathError Path) :=
  match classifyAll (splitPieces path) with
  | none => none
  | some items =>
    let p : Path := ⟨method, items⟩
    some (match Path.validate p with
          | .error e => .error e
          | .ok _ => .ok p)

/-- Rendering walk of `Path::render`: static segments emit their literal name,
dynamic segments look up their sigil-stripped name in the parameters. -/
def Path.renderAux (params : RouteParameter) : List Item → Except PathError (List String)
  | [] => .ok []
  | it :: rest =>
    match (if Item.is_static it then Except.ok (Item.get_name it)
           else match Map.get params (dropSigil (Item.get_name it)) with
                | some s => Except.ok s
                | none => Except.error (PathError.ParameterNotFound (Item.get_name it))) with
    | .error e => .error e
    | .ok s =>
      match Path.renderAux params rest with
      | .error e => .error e
      | .ok ss => .ok (s :: ss)

/-- Substituting parameters into the template (`Path::render`). -/
def Path.render (p : Path) (params : RouteParameter) : Except PathError String :=
  match Path.renderAux params p.items with
  | .error e => .error e
  | .ok pieces => .ok (joinSep pieces)

/-- Joining the literal stored names (`Path::render_original`). -/
def Path.render_original (p : Path) : String :=
  joinSep (p.items.map Item.get_name)

/-- Tree-level errors (`TreeError` from src/tree.rs). -/
inductive TreeError : Type where
  | PathNotFound (path : String) : TreeError
  | MethodNotFound (method : Method) : TreeError
  | PathAlreadyRegistered (route : String) : TreeError
deriving DecidableEq

/-- Tag of the single dynamic child (`DynamicChildType` from src/tree.rs). -/
inductive DynKind : Type where
  | Parameter : DynKind
  | Wildcard : DynKind
deriving DecidableEq

/-- Loop control used by `Tree::lookup` (`LoopBehavior` from src/tree.rs). -/
inductive LoopBehavior : Type where
  | Ignore : LoopBehavior
  | Collect : LoopBehavior
  | Finish : LoopBehavior
deriving DecidableEq

/-- Trie node (`Node` from src/tree.rs): a static-children map, at most one
dynamic child carrying its name and kind (`DynamicChild`), and the per-method
item map of routes terminating here. -/
inductive Node (T : Type) : Type where
  | mk (static_children : List (String × Node T))
       (dynamic_child : Option (String × DynKind × Node T))
       (item : List (Method × T))

/-- Static-children map of a node. -/
def Node.static_children {T : Type} : Node T → Map String (Node T)
  | .mk sc _ _ => sc

/-- Dynamic child of a node, when present. -/
def Node.dynamic_child {T : Type} : Node T → Option (String × DynKind × Node T)
  | .mk _ dc _ => dc

/-- Method-to-item map of a node. -/
def Node.item {T : Type} : Node T → Map Method T
  | .mk _ _ it => it

/-- Fresh empty node (`Node::new`). -/
def Node.new {T : Type} : Node T := .mk [] none []

/-- Storing an item under a method (`Node::set`). -/
def Node.set {T : Type} (n : Node T) (method : Method) (v : T) : Node T :=
  .mk (Node.static_children n) (Node.dynamic_child n) (Map.insert (Node.item n) method v)

/-- Method membership (`Node::has`). -/
def Node.has {T : Type} (n : Node T) (method : Method) : Bool :=
  Map.contains_key (Node.item n) method

/-- Item retrieval (`Node::get_item`). -/
def Node.get_item {T : Type} (n : Node T) (method : Method) : Option T :=
  Map.get (Node.item n) method

/-- Child resolution during lookup (`Node::get_child`): the static child keyed
by the piece wins; otherwise the dynamic child answers, a Parameter with
`Collect` and a Wildcard with `Finish`.  The result carries the matched child,
the name the parameter would be recorded under, and the loop behavior, as the
source's `LookupResult` does. -/
def Node.get_child {T : Type} (n : Node T) (name : String) :
    Option (Node T × String × LoopBehavior) :=
  match Map.get (Node.static_children n) name with
  | some child => some (child, name, .Ignore)
  | none =>
    match Node.dynamic_child n with
    | none => none
    | some (dname, kind, child) =>
      match kind with
      | .Parameter => some (child, dname, .Collect)
      | .Wildcard => some (child, dname, .Finish)

/-- Descent of `Tree::add` through `Node::ensure`, modelling the in-place
mutation: the returned node is the state of the subtree after the call, and
the boolean is true when the insertion failed with a conflict
(`NodeError::PathAlreadyRegistered` from `ensure`, or a duplicate method at
the terminal node).  On a conflict the mutations already performed persist,
exactly as in the Rust early return. -/
def Node.addAux {T : Type} : Node T → List Item → Method → T → Node T × Bool
  | n, [], method, v =>
    if Node.has n method then (n, true) else (Node.set n method v, false)
  | n, .Static name :: rest, method, v =>
    match Map.get (Node.static_children n) name with
    | some child =>
      let res := Node.addAux child rest method v
      (.mk (Map.insert (Node.static_children n) name res.1) (Node.dynamic_child n) (Node.item n),
       res.2)
    | none =>
      let res := Node.addAux Node.new rest method v
      (.mk (Map.insert (Node.static_children n) name res.1) (Node.dynamic_child n) (Node.item n),
       res.2)
  | n, .Parameter name :: rest, method, v =>
    match Node.dynamic_child n with
    | some _ => (n, true)
    | none =>
      let res := Node.addAux Node.new rest method v
      (.mk (Node.static_children n) (some (name, .Parameter, res.1)) (Node.item n), res.2)
  | n, .Wildcard name :: rest, method, v =>
    match Node.dynamic_child n with
    | some _ => (n, true)
    | none =>
      let res := Node.addAux Node.new rest method v
      (.mk (Node.static_children n) (some (name, .Wildcard, res.1)) (Node.item n), res.2)

mutual

/-- Recursive compaction (`Node::optimize`): compacts the static-children map,
every static child, and the dynamic child's node. -/
def Node.optimize {T : Type} : Node T → Node T
  | .mk sc dc it =>
    .mk (optimizeChildren (Map.optimize sc))
        (match dc with
         | none => none
         | some (name, kind, child) => some (name, kind, Node.optimize child))
        it

/-- In-place compaction of every value of the static-children map (the
`iter_mut` loop inside `Node::optimize`). -/
def optimizeChildren {T : Type} : List (String × Node T) → List (String × Node T)
  | [] => []
  | (k, v) :: rest => (k, Node.optimize v) :: optimizeChildren rest

end

/-- The routing tree (`Tree` from src/tree.rs). -/
structure Tree (T : Type) : Type where
  root : Node T

/-- Fresh tree (`Tree::new`). -/
def Tree.new {T : Type} : Tree T := ⟨Node.new⟩

/-- Registration (`Tree::add`): descend and create nodes along the path's
segments, then store the item under the path's method at the terminal node.
The returned tree is the state after the call; the second component is the
error, `PathAlreadyRegistered` with the route's `render_original`, for a
dynamic-child conflict or a duplicate method. -/
def Tree.add {T : Type} (t : Tree T) (p : Path) (v : T) : Tree T × Option TreeError :=
  match Node.addAux t.root p.items p.method v with
  | (root', true) => (⟨root'⟩, some (.PathAlreadyRegistered (Path.render_original p)))
  | (root', false) => (⟨root'⟩, none)

/-- Lookup result (`RouteMatch` from src/route_match.rs): the matched item and
the extracted parameters. -/
structure RouteMatch (T : Type) : Type where
  item : T
  params : RouteParameter
deriving DecidableEq

/-- The piece-consuming walk of `Tree::lookup`: resolve each piece through
`Node::get_child`; `Ignore` records nothing, `Collect` records the piece under
the sigil-stripped name, `Finish` records the remaining pieces joined by the
separator and stops.  `path` is the raw lookup path carried for the
`PathNotFound` payload. -/
def Tree.lookupAux {T : Type} (path : String) :
    Node T → List String → RouteParameter → Except TreeError (Node T × RouteParameter)
  | n, [], params => .ok (n, params)
  | n, piece :: rest, params =>
    match Node.get_child n piece with
    | none => .error (.PathNotFound path)
    | some (child, name, behavior) =>
      match behavior with
      | .Ignore => Tree.lookupAux path child rest params
      | .Collect => Tree.lookupAux path child rest (Map.insert params (dropSigil name) piece)
      | .Finish => .ok (child, Map.insert params (dropSigil name) (joinSep (piece :: rest)))

/-- Resolution (`Tree::lookup`): split the raw path into non-empty pieces,
walk the tree, then look the method up at the final node; a missing method is
`MethodNotFound`, a failed walk is `PathNotFound`. -/
def Tree.lookup {T : Type} (t : Tree T) (method : Method) (path : String) :
    Except TreeError (RouteMatch T) :=
  match Tree.lookupAux path t.root (splitPieces path) [] with
  | .error e => .error e
  | .ok (node, params) =>
    match Node.get_item node method with
    | some v => .ok ⟨v, params⟩
    | none => .error (.MethodNotFound method)

/-- Tree compaction (`Tree::optimize`). -/
def Tree.optimize {T : Type} (t : Tree T) : Tree T := ⟨Node.optimize t.root⟩

/-- Modelled from the spec: the external `url::Url` type is out of scope and
is used only to hold and join the base address for link generation; a URL is
modelled as a string. -/
abbrev Url : Type := String

/-- Modelled from the spec: `Url::join` of the external url crate joins the
base address with the rendered relative path; the model concatenates them and
always succeeds.  None of the claims depends on the join semantics. -/
def Url.join (base : Url) (rel : String) : Except Unit Url :=
  .ok (base ++ rel)

/-- A named route (`Route` from src/route.rs). -/
structure Route (T : Type) : Type where
  name : String
  path : Path
  item : T

/-- Route construction (`Route::create`): parse the template; a `none` result
models the parse panic (see `classifyPiece`). -/
def Route.create {T : Type} (name : String) (method : Method) (path : String) (item : T) :
    Option (Except PathError (Route T)) :=
  match Path.parse method path with
  | none => none
  | some (.error e) => some (.error e)
  | some (.ok p) => some (.ok ⟨name, p, item⟩)

/-- Router-level errors (`RouterError` from src/router.rs). -/
inductive RouterError : Type where
  | RouteAlreadyExists (route_name : String) : RouterError
  | RouteNotFound (route_name : String) : RouterError
  | TreeError (tree_error : StarRouter.TreeError) : RouterError
  | PathError (path_error : StarRouter.PathError) : RouterError
  | UrlParseError : RouterError
deriving DecidableEq

/-- The router facade (`Router` from src/router.rs): a name-to-route map, a
tree storing route names, and the base address for links. -/
structure Router (T : Type) : Type where
  routes : Map String (Route T)
  tree : Tree String
  base : Url

/-- Fresh router (`Router::new`). -/
def Router.new {T : Type} (base : Url) : Router T := ⟨[], Tree.new, base⟩

/-- Registration (`Router::add`): reject a duplicate route name, insert the
route's path into the tree keyed by the name (propagating tree conflicts),
then record the route in the name map.  The returned router is the state
after the call, the second component the error. -/
def Router.add {T : Type} (rt : Router T) (r : Route T) : Router T × Option RouterError :=
  if Map.contains_key rt.routes r.name then
    (rt, some (.RouteAlreadyExists r.name))
  else
    match Tree.add rt.tree r.path r.name with
    | (tree', some te) => (⟨rt.routes, tree', rt.base⟩, some (.TreeError te))
    | (tree', none) => (⟨Map.insert rt.routes r.name r, tree', rt.base⟩, none)

/-- Resolution (`Router::resolve`): the tree lookup yields a route name and
parameters; the name fetches the route from the name map, a miss there being
surfaced as `PathNotFound` wrapped in `TreeError`. -/
def Router.resolve {T : Type} (rt : Router T) (method : Method) (path : String) :
    Except RouterError (RouteMatch T) :=
  match Tree.lookup rt.tree method path with
  | .error te => .error (.TreeError te)
  | .ok rm =>
    match Map.get rt.routes rm.item with
    | some r => .ok ⟨r.item, rm.params⟩
    | none => .error (.TreeError (.PathNotFound path))

/-- Link generation (`Router::link`): fetch the route by name, render its
template with the parameters, and join the result onto the base address. -/
def Router.link {T : Type} (rt : Router T) (route_name : String)
    (route_params : RouteParameter) : Except RouterError Url :=
  match Map.get rt.routes route_name with
  | none => .error (.RouteNotFound route_name)
  | some r =>
    match Path.render r.path route_params with
    | .error pe => .error (.PathError pe)
    | .ok rendered =>
      match Url.join rt.base rendered with
      | .error _ => .error .UrlParseError
      | .ok u => .ok u

/-- Router compaction (`Router::optimize`): compacts the name map and the
tree. -/
def Router.optimize {T : Type} (rt : Router T) : Router T :=
  ⟨Map.optimize rt.routes, Tree.optimize rt.tree, rt.base⟩

/-- The GET method token. -/
def sGET : Method := "GET"

/-- The POST method token. -/
def sPOST : Method := "POST"

/-- Example base address for a router. -/
def sBase : Url := "http://example.com"

/-- The literal piece of the /param routes. -/
def sParam : String := "param"

/-- The parameter segment of /param/:item, raw name with sigil. -/
def sColonItem : String := ":item"

/-- The literal piece overlapping the parameter segment. -/
def sOverlap : String := "overlap"

/-- The literal piece of the /wildcard route and the stripped wildcard name. -/
def sWildcardName : String := "wildcard"

/-- The wildcard segment of /wildcard/*wildcard, raw name with sigil. -/
def sStarWildcard : String := "*wildcard"

/-- Example piece. -/
def sFoo : String := "foo"

/-- Example piece. -/
def sBar : String := "bar"

/-- Remainder captured by the wildcard on /wildcard/foo/bar. -/
def sFooBar : String := "foo/bar"

/-- Remainder captured by the wildcard on /wildcard/a/b/c. -/
def sABC : String := "a/b/c"

/-- Example piece. -/
def sA : String := "a"

/-- Example piece. -/
def sB : String := "b"

/-- The parameter segment of /a/:p, raw name with sigil. -/
def sColonP : String := ":p"

/-- Example parameter key. -/
def sX : String := "x"

/-- Example parameter value. -/
def sY : String := "y"

/-- Example route name. -/
def sRouteP : String := "p"

/-- Example route name. -/
def sRouteW : String := "w"

/-- The literal piece of the /parameter routes. -/
def sParameterSeg : String := "parameter"

/-- The root path. -/
def sSlash : String := "/"

/-- Lookup path hitting the static/parameter overlap. -/
def sPathParamOverlap : String := "/param/overlap"

/-- Lookup path consumed by the wildcard route. -/
def sPathWildFooBar : String := "/wildcard/foo/bar"

/-- Deeper lookup path consumed by the wildcard route. -/
def sPathWildABC : String := "/wildcard/a/b/c"

/-- A lone parameter sigil. -/
def sColon : String := ":"

/-- A lone wildcard sigil. -/
def sStar : String := "*"

/-- Template whose only piece is the parameter sigil. -/
def sPathColon : String := "/:"

/-- Template whose only piece is the wildcard sigil. -/
def sPathStar : String := "/*"

/-- Template whose piece starts with a two-byte UTF-8 character. -/
def sPathEacute : String := "/é"

/-- Template with a wildcard before another piece. -/
def sPathStarAB : String := "/*a/b"

/-- First piece of that template. -/
def sStarA : String := "*a"

/-- Conflicting template /a/:p/b as rendered by `render_original`. -/
def sTemplateConflict : String := "a/:p/b"

/-- Conflicting template /parameter/*wildcard as rendered by
`render_original`. -/
def sParamWildTmpl : String := "parameter/*wildcard"

/-- Parsed form of the template "/" for GET: zero segments. -/
def pRoot : Path := ⟨sGET, []⟩

/-- Parsed form of /param/:item for GET. -/
def pParamItem : Path := ⟨sGET, [.Static sParam, .Parameter sColonItem]⟩

/-- Parsed form of /param/overlap for GET. -/
def pParamOverlap : Path := ⟨sGET, [.Static sParam, .Static sOverlap]⟩

/-- Parsed form of /wildcard/*wildcard for GET. -/
def pWild : Path := ⟨sGET, [.Static sWildcardName, .Wildcard sStarWildcard]⟩

/-- Parsed form of /a/:p for GET. -/
def pAP : Path := ⟨sGET, [.Static sA, .Parameter sColonP]⟩

/-- Parsed form of /a/:p/b for GET. -/
def pAPB : Path := ⟨sGET, [.Static sA, .Parameter sColonP, .Static sB]⟩

/-- Parsed form of /parameter/:item for GET. -/
def pParameterItem : Path := ⟨sGET, [.Static sParameterSeg, .Parameter sColonItem]⟩

/-- Parsed form of /parameter/*wildcard for GET. -/
def pParameterWild : Path := ⟨sGET, [.Static sParameterSeg, .Wildcard sStarWildcard]⟩

/-- A purely static two-segment path, a/b for GET. -/
def pStatAB : Path := ⟨sGET, [.Static sA, .Static sB]⟩

/-- Tree holding /param/:item (item 1) then /param/overlap (item 2). -/
def tOrderA : Tree Nat :=
  (Tree.add (Tree.add Tree.new pParamItem 1).1 pParamOverlap 2).1

/-- Tree holding the same two routes registered in the opposite order. -/
def tOrderB : Tree Nat :=
  (Tree.add (Tree.add Tree.new pParamOverlap 2).1 pParamItem 1).1

/-- Tree holding /wildcard/*wildcard with item 7. -/
def tWild : Tree Nat := (Tree.add Tree.new pWild 7).1

/-- Tree holding the root route for GET with item 1. -/
def tRoot : Tree Nat := (Tree.add Tree.new pRoot 1).1

/-- Tree holding /a/:p with item 1. -/
def tAfterParam : Tree Nat := (Tree.add Tree.new pAP 1).1

/-- A node with a static child and a parameter dynamic child, as the /param
node of `tOrderA`. -/
def nStat : Node Nat := .mk [(sOverlap, Node.new)] (some (sColonItem, .Parameter, Node.new)) []

/-- A node that already holds a dynamic child. -/
def nDyn : Node Nat := .mk [] (some (sColonP, .Parameter, Node.new)) []

/-- A node whose dynamic child is a wildcard. -/
def nWildNode : Node Nat := .mk [] (some (sStarWildcard, .Wildcard, Node.new)) []

/-- Route named p at /parameter/:item with item 1. -/
def rP : Route Nat := ⟨sRouteP, pParameterItem, 1⟩

/-- Route named w at /parameter/*wildcard with item 2. -/
def rW : Route Nat := ⟨sRouteW, pParameterWild, 2⟩

/-- Router holding the route rP. -/
def rtEx : Router Nat := (Router.add (Router.new sBase) rP).1

/-- Replacing a key with the value it already holds leaves the map unchanged. -/
theorem Map.insert_get_self {K V : Type} [DecidableEq K] (m : Map K V) (k : K) (v : V)
    (h : Map.get m k = some v) : Map.insert m k v = m := by
  induction m with
  | nil => simp [Map.get] at h
  | cons hd tl ih =>
    cases hd with
    | mk k' v' =>
      by_cases hk : k = k'
      · subst hk
        simp [Map.get] at h
        simp [Map.insert, h]
      · simp [Map.get, hk] at h
        simp [Map.insert, hk, ih h]

/-- Descending into a freshly created node can never conflict: a fresh node
has no dynamic child and no methods, and all its descendants are fresh. -/
theorem Node.addAux_fresh {T : Type} (items : List Item) (method : Method) (v : T) :
    (Node.addAux (Node.new : Node T) items method v).2 = false := by
  induction items with
  | nil => simp [Node.addAux, Node.has, Node.new, Map.contains_key, Map.get]
  | cons hd tl ih =>
    cases hd with
    | Static name =>
      simpa [Node.addAux, Node.new, Node.static_children, Map.get] using ih
    | Parameter name =>
      simpa [Node.addAux, Node.new, Node.dynamic_child] using ih
    | Wildcard name =>
      simpa [Node.addAux, Node.new, Node.dynamic_child] using ih

/-- When an insertion fails with a conflict, the subtree is left exactly as it
was: conflicts are only detected at pre-existing nodes, before any node has
been created. -/
theorem Node.addAux_error {T : Type} (items : List Item) :
    ∀ (n : Node T) (method : Method) (v : T),
      (Node.addAux n items method v).2 = true → (Node.addAux n items method v).1 = n := by
  induction items with
  | nil =>
    intro n method v h
    by_cases hh : Node.has n method
    · simp [Node.addAux, hh]
    · simp [Node.addAux, hh] at h
  | cons hd tl ih =>
    intro n method v h
    cases n with
    | mk sc dc it =>
      cases hd with
      | Static name =>
        cases hg : Map.get sc name with
        | some child =>
          have hg' : Map.get (Node.static_children (Node.mk sc dc it)) name = some child := hg
          have hres : (Node.addAux child tl method v).2 = true := by
            simpa [Node.addAux, Node.static_children, hg] using h
          have h1 := ih child method v hres
          simp [Node.addAux, Node.static_children, Node.dynamic_child, Node.item, hg, h1,
            Map.insert_get_self sc name child hg]
        | none =>
          have hres := Node.addAux_fresh (T := T) tl method v
          simp [Node.addAux, Node.static_children, hg, hres] at h
      | Parameter name =>
        cases hd : dc with
        | some d => simp [Node.addAux, Node.dynamic_child, hd]
        | none =>
          have hres := Node.addAux_fresh (T := T) tl method v
          simp [Node.addAux, Node.dynamic_child, hd, hres] at h
      | Wildcard name =>
        cases hd : dc with
        | some d => simp [Node.addAux, Node.dynamic_child, hd]
        | none =>
          have hres := Node.addAux_fresh (T := T) tl method v
          simp [Node.addAux, Node.dynamic_child, hd, hres] at h

/-- A failed `Tree::add` leaves the tree exactly as it was. -/
theorem tree_add_error_rollback {T : Type} (t : Tree T) (p : Path) (v : T) (e : TreeError)
    (h : (Tree.add t p v).2 = some e) : (Tree.add t p v).1 = t := by
  cases t with
  | mk root =>
    cases haux : Node.addAux root p.items p.method v with
    | mk root' errb =>
      have h1 : (Node.addAux root p.items p.method v).1 = root' := by rw [haux]
      have h2 : (Node.addAux root p.items p.method v).2 = errb := by rw [haux]
      cases errb with
      | false => simp [Tree.add, haux] at h
      | true =>
        have := Node.addAux_error p.items root p.method v h2
        rw [h1] at this
        simp [Tree.add, haux, this]

/-- A failed `Router::add` leaves the router exactly as it was. -/
theorem router_add_error_rollback {T : Type} (rt : Router T) (r : Route T) (e : RouterError)
    (h : (Router.add rt r).2 = some e) : (Router.add rt r).1 = rt := by
  cases rt with
  | mk routes tree base =>
    by_cases hc : Map.contains_key routes r.name
    · simp [Router.add, hc]
    · cases hadd : Tree.add tree r.path r.name with
      | mk tree' te =>
        cases te with
        | none => simp [Router.add, hc, hadd] at h
        | some te0 =>
          have h2 : (Tree.add tree r.path r.name).2 = some te0 := by rw [hadd]
          have h3 : tree' = tree := by
            have h4 := tree_add_error_rollback tree r.path r.name te0 h2
            rw [hadd] at h4
            simpa using h4
          simp [Router.add, hc, hadd, h3]

/-- Optimizing every child of a list of children whose optimization is the
identity is the identity. -/
theorem optimizeChildren_congr {T : Type} (l : List (String × Node T))
    (h : ∀ p ∈ l, Node.optimize p.2 = p.2) : optimizeChildren l = l := by
  induction l with
  | nil => simp [optimizeChildren]
  | cons hd tl ih =>
    cases hd with
    | mk k v =>
      simp only [optimizeChildren]
      rw [h (k, v) (by simp)]
      rw [ih (fun p hp => h p (by simp [hp]))]

/-- Node compaction only reclaims capacity: on the model it is the identity. -/
theorem node_optimize_id {T : Type} (n : Node T) : Node.optimize n = n := by
  generalize hs : sizeOf n = k
  induction k using Nat.strong_induction_on generalizing n with
  | _ k ih =>
    subst hs
    cases n with
    | mk sc dc it =>
      rw [Node.optimize.eq_def]
      simp only []
      have hsc : optimizeChildren (Map.optimize sc) = sc := by
        apply optimizeChildren_congr
        intro p hp
        apply ih (sizeOf p.2) _ p.2 rfl
        have h1 : sizeOf p < sizeOf sc := List.sizeOf_lt_of_mem hp
        have h2 : sizeOf p.2 < sizeOf p := by
          cases p; simp
        simp only [Node.mk.sizeOf_spec]
        omega
      rw [hsc]
      cases dc with
      | none => rfl
      | some d =>
        cases d with
        | mk name rest =>
          cases rest with
          | mk kind child =>
            have hc : Node.optimize child = child := by
              apply ih (sizeOf child) _ child rfl
              simp only [Node.mk.sizeOf_spec]
              simp
              omega
            simp [hc]

/-- Tree compaction is the identity on the model. -/
theorem tree_optimize_id {T : Type} (t : Tree T) : Tree.optimize t = t := by
  cases t with
  | mk root => simp [Tree.optimize, node_optimize_id]

/-- Router compaction is the identity on the model. -/
theorem router_optimize_id {T : Type} (rt : Router T) : Router.optimize rt = rt := by
  cases rt with
  | mk routes tree base => simp [Router.optimize, Map.optimize, tree_optimize_id]

/-- Every successfully classified piece passes `Item::validate`: its raw name
is the piece itself, which is non-empty. -/
theorem classifyPiece_validate (part : String) (it : Item)
    (h : classifyPiece part = some it) : Item.validate it = .ok () := by
  cases part with
  | mk pdata =>
    cases pdata with
    | nil => simp [classifyPiece] at h
    | cons c cs =>
      have hname : Item.get_name it = String.mk (c :: cs) := by
        simp only [classifyPiece] at h
        split at h
        · simp at h
        · split at h
          · simp at h; subst h; rfl
          · split at h
            · simp at h; subst h; rfl
            · simp at h; subst h; rfl
      have hne : String.mk (c :: cs) ≠ emptyString := by
        intro he
        have : (String.mk (c :: cs)).data = emptyString.data := by rw [he]
        simp [emptyString] at this
      simp [Item.validate, hname, hne]

/-- Every item produced by a successful classification run passes
`Item::validate`. -/
theorem classifyAll_validate (ps : List String) (items : List Item)
    (h : classifyAll ps = some items) : ∀ it ∈ items, Item.validate it = .ok () := by
  induction ps generalizing items with
  | nil =>
    simp [classifyAll] at h
    subst h
    simp
  | cons p rest ih =>
    simp only [classifyAll] at h
    cases hp : classifyPiece p with
    | none => rw [hp] at h; simp at h
    | some it0 =>
      rw [hp] at h
      cases hr : classifyAll rest with
      | none => rw [hr] at h; simp at h
      | some items0 =>
        rw [hr] at h
        have h' : it0 :: items0 = items := Option.some.inj h
        subst h'
        intro it hit
        rcases List.mem_cons.mp hit with h1 | h2
        · rw [h1]; exact classifyPiece_validate p it0 hp
        · exact ih items0 hr it h2

/-- The validation walk cannot succeed when some wildcard sits at an index
other than the last one. -/
theorem validateAux_not_ok (len : Nat) (l : List Item) :
    ∀ (i j : Nat) (it : Item),
      (∀ x ∈ l, Item.validate x = .ok ()) →
      l[j]? = some it → Item.is_wildcard it = true → i + j ≠ len - 1 →
      Path.validateAux len l i ≠ .ok () := by
  induction l with
  | nil => intro i j it _ hj; simp at hj
  | cons hd tl ih =>
    intro i j it hall hj hw hne
    simp only [Path.validateAux]
    rw [hall hd (by simp)]
    cases j with
    | zero =>
      simp at hj
      subst hj
      rw [if_pos ⟨hw, by omega⟩]
      simp
    | succ j' =>
      simp at hj
      by_cases hcond : Item.is_wildcard hd = true ∧ i ≠ len - 1
      · rw [if_pos hcond]; simp
      · rw [if_neg hcond]
        exact ih (i + 1) j' it (fun x hx => hall x (by simp [hx])) hj hw (by omega)

/-- When every item passes `Item::validate`, the validation walk returns
either success or the wildcard-position error. -/
theorem validateAux_ok_or (len : Nat) (l : List Item) :
    ∀ (i : Nat),
      (∀ x ∈ l, Item.validate x = .ok ()) →
      Path.validateAux len l i = .ok () ∨
      Path.validateAux len l i = .error .WildcardItemMustBeLast := by
  induction l with
  | nil => intro i _; left; rfl
  | cons hd tl ih =>
    intro i hall
    simp only [Path.validateAux]
    rw [hall hd (by simp)]
    by_cases hcond : Item.is_wildcard hd = true ∧ i ≠ len - 1
    · right; rw [if_pos hcond]
    · rw [if_neg hcond]
      exact ih (i + 1) (fun x hx => hall x (by simp [hx]))

/-- Rendering a list of static items emits exactly their literal names. -/
theorem renderAux_static (params : RouteParameter) (l : List Item)
    (h : ∀ x ∈ l, Item.is_static x = true) :
    Path.renderAux params l = .ok (l.map Item.get_name) := by
  induction l with
  | nil => rfl
  | cons hd tl ih =>
    simp only [Path.renderAux]
    rw [if_pos (h hd (by simp))]
    rw [ih (fun x hx => h x (by simp [hx]))]
    simp

/-- Claim C1: during lookup, when the current node has a static child whose
key equals the current path piece, traversal descends into the static child
and records no parameter for that piece, regardless of any sibling dynamic
child and of registration order; concretely, with routes at /param/:item and
/param/overlap registered in either order, resolving /param/overlap returns
the overlap route's item and binds no parameter at all. -/
theorem static_precedence_in_lookup :
    (∀ (T : Type) (n : Node T) (piece path : String) (rest : List String)
       (params : RouteParameter) (child : Node T),
       Map.get (Node.static_children n) piece = some child →
       Tree.lookupAux path n (piece :: rest) params =
         Tree.lookupAux path child rest params) ∧
    Tree.lookup tOrderA sGET sPathParamOverlap = .ok ⟨2, []⟩ ∧
    Tree.lookup tOrderB sGET sPathParamOverlap = .ok ⟨2, []⟩ := by
  refine ⟨?_, rfl, rfl⟩
  intro T n piece path rest params child h
  simp [Tree.lookupAux, Node.get_child, h]

/-- Witness for C1 at a concrete node with both a static child matching the
piece and a parameter dynamic child. -/
theorem static_precedence_in_lookup_witness :
    Tree.lookupAux sPathParamOverlap nStat [sOverlap] [] =
      Tree.lookupAux sPathParamOverlap (Node.new : Node Nat) [] [] :=
  static_precedence_in_lookup.1 Nat nStat sOverlap sPathParamOverlap [] [] Node.new rfl

/-- Claim C2: when lookup reaches a node whose dynamic child is a wildcard
and no static child matches the piece, the walk stops immediately, binding
the wildcard's sigil-stripped name to the remaining pieces joined by the
separator, and the wildcard route's item is returned; concretely a route at
/wildcard/*wildcard resolves /wildcard/foo/bar with wildcard = foo/bar and
/wildcard/a/b/c with wildcard = a/b/c. -/
theorem wildcard_consumes_rest :
    (∀ (T : Type) (n : Node T) (dname path piece : String) (rest : List String)
       (params : RouteParameter) (child : Node T),
       Map.get (Node.static_children n) piece = none →
       Node.dynamic_child n = some (dname, .Wildcard, child) →
       Tree.lookupAux path n (piece :: rest) params =
         .ok (child, Map.insert params (dropSigil dname) (joinSep (piece :: rest)))) ∧
    Tree.lookup tWild sGET sPathWildFooBar = .ok ⟨7, [(sWildcardName, sFooBar)]⟩ ∧
    Tree.lookup tWild sGET sPathWildABC = .ok ⟨7, [(sWildcardName, sABC)]⟩ := by
  refine ⟨?_, rfl, rfl⟩
  intro T n dname path piece rest params child h1 h2
  simp [Tree.lookupAux, Node.get_child, h1, h2]

/-- Witness for C2 at a concrete node whose dynamic child is a wildcard. -/
theorem wildcard_consumes_rest_witness :
    Tree.lookupAux sPathWildFooBar nWildNode [sFoo, sBar] [] =
      .ok ((Node.new : Node Nat),
           Map.insert [] (dropSigil sStarWildcard) (joinSep [sFoo, sBar])) :=
  wildcard_consumes_rest.1 Nat nWildNode sStarWildcard sPathWildFooBar sFoo [sBar] []
    Node.new rfl rfl

/-- Claim C3: an insertion that descends a Parameter or Wildcard segment at a
node already holding a dynamic child of either kind fails, leaving the node
unchanged, and the tree-level error is PathAlreadyRegistered carrying the
offending route's original template; concretely adding /a/:p/b after /a/:p,
which descends the same-kind same-name parameter, fails this way. -/
theorem dynamic_child_conflict :
    (∀ (T : Type) (n : Node T) (name : String) (rest : List Item) (method : Method)
       (v : T) (d : String × DynKind × Node T),
       Node.dynamic_child n = some d →
       Node.addAux n (Item.Parameter name :: rest) method v = (n, true) ∧
       Node.addAux n (Item.Wildcard name :: rest) method v = (n, true)) ∧
    (∀ (T : Type) (t : Tree T) (p : Path) (v : T) (e : TreeError),
       (Tree.add t p v).2 = some e →
       e = .PathAlreadyRegistered (Path.render_original p)) ∧
    (Tree.add tAfterParam pAPB 9).2 = some (.PathAlreadyRegistered sTemplateConflict) := by
  refine ⟨?_, ?_, rfl⟩
  · intro T n name rest method v d h
    exact ⟨by simp [Node.addAux, h], by simp [Node.addAux, h]⟩
  · intro T t p v e h
    cases haux : Node.addAux t.root p.items p.method v with
    | mk root' errb =>
      cases errb with
      | false => simp [Tree.add, haux] at h
      | true =>
        simp [Tree.add, haux] at h
        exact h.symm

/-- Witness for C3 at a concrete node that already holds a dynamic child. -/
theorem dynamic_child_conflict_witness :
    Node.addAux nDyn [Item.Parameter sColonP] sGET 0 = (nDyn, true) :=
  (dynamic_child_conflict.1 Nat nDyn sColonP [] sGET 0
    (sColonP, .Parameter, Node.new) rfl).1

/-- Claim C4: a registration call that fails with a conflict, whether a tree
conflict in Tree::add or a duplicate name or propagated tree conflict in
Router::add, leaves the tree and the name map exactly as they were, so every
subsequent lookup, resolve and link returns the same result as before the
failed call. -/
theorem registration_conflict_rollback :
    (∀ (T : Type) (t : Tree T) (p : Path) (v : T) (e : TreeError),
       (Tree.add t p v).2 = some e →
       (Tree.add t p v).1 = t ∧
       (∀ (method : Method) (path : String),
          Tree.lookup (Tree.add t p v).1 method path = Tree.lookup t method path)) ∧
    (∀ (T : Type) (rt : Router T) (r : Route T) (e : RouterError),
       (Router.add rt r).2 = some e →
       (Router.add rt r).1 = rt ∧
       (∀ (method : Method) (path : String),
          Router.resolve (Router.add rt r).1 method path = Router.resolve rt method path) ∧
       (∀ (name : String) (params : RouteParameter),
          Router.link (Router.add rt r).1 name params = Router.link rt name params)) := by
  constructor
  · intro T t p v e h
    have h1 := tree_add_error_rollback t p v e h
    exact ⟨h1, fun method path => by rw [h1]⟩
  · intro T rt r e h
    have h1 := router_add_error_rollback rt r e h
    exact ⟨h1, fun method path => by rw [h1], fun name params => by rw [h1]⟩

/-- Witness for C4: adding the conflicting wildcard route to the router that
holds the overlapping parameter route fails and leaves the router unchanged. -/
theorem registration_conflict_rollback_witness :
    (Router.add rtEx rW).1 = rtEx :=
  (registration_conflict_rollback.2 Nat rtEx rW
    (.TreeError (.PathAlreadyRegistered sParamWildTmpl)) rfl).1

/-- Claim C5: when the walk of a lookup reaches a final node but that node's
method map has no entry for the requested method, lookup fails with
MethodNotFound rather than PathNotFound; concretely, with / registered for
GET only, POST / fails with MethodNotFound while GET / succeeds. -/
theorem method_not_found_distinct :
    (∀ (T : Type) (t : Tree T) (method : Method) (path : String)
       (node : Node T) (params : RouteParameter),
       Tree.lookupAux path t.root (splitPieces path) [] = .ok (node, params) →
       Node.get_item node method = none →
       Tree.lookup t method path = .error (.MethodNotFound method)) ∧
    Tree.lookup tRoot sPOST sSlash = .error (.MethodNotFound sPOST) ∧
    Tree.lookup tRoot sGET sSlash = .ok ⟨1, []⟩ := by
  refine ⟨?_, rfl, rfl⟩
  intro T t method path node params h1 h2
  simp [Tree.lookup, h1, h2]

/-- Witness for C5 at the concrete root-only tree. -/
theorem method_not_found_distinct_witness :
    Tree.lookup tRoot sPOST sSlash = .error (.MethodNotFound sPOST) :=
  method_not_found_distinct.1 Nat tRoot sPOST sSlash tRoot.root [] rfl rfl

/-- Claim C6, refuted (code bug): the claim says a template with a segment
whose sigil-stripped name is empty fails with NameMustNotBeEmpty, but
`Item::validate` checks the raw name with the sigil still attached, which is
never empty for a piece that survived the empty-piece filter; the templates
consisting of a lone sigil therefore parse successfully. -/
theorem empty_name_segment_accepted :
    Path.parse sGET sPathColon = some (.ok ⟨sGET, [Item.Parameter sColon]⟩) ∧
    Path.parse sGET sPathStar = some (.ok ⟨sGET, [Item.Wildcard sStar]⟩) :=
  ⟨rfl, rfl⟩

/-- The NameMustNotBeEmpty error is unreachable through parsing: split pieces
are non-empty and validation checks the raw, unstripped name. -/
theorem parse_never_name_must_not_be_empty (method : Method) (tmpl : String) :
    Path.parse method tmpl ≠ some (.error .NameMustNotBeEmpty) := by
  unfold Path.parse
  cases hcl : classifyAll (splitPieces tmpl) with
  | none => simp
  | some items =>
    have hall := classifyAll_validate _ _ hcl
    rcases validateAux_ok_or items.length items 0 hall with hok | herr
    · simp [Path.validate, hok]
    · simp [Path.validate, herr]

/-- Claim C7, refuted (code bug): parsing is not total; the byte slice
`&part[..1]` in `Path::parse` panics when the first character of a piece is
encoded with more than one UTF-8 byte, so parse aborts instead of returning
an error value, while ordinary templates still parse normally. -/
theorem parse_panics_on_multibyte :
    Path.parse sGET sPathEacute = none ∧
    Path.parse sGET sSlash = some (.ok ⟨sGET, []⟩) :=
  ⟨rfl, rfl⟩

/-- Claim C8: for every template whose pieces classify to a segment list with
a wildcard at a position other than the last, parse fails with
WildcardItemMustBeLast.  (Templates on which classification itself panics are
the subject of C7.) -/
theorem wildcard_must_be_last :
    ∀ (method : Method) (tmpl : String) (items : List Item) (i : Nat) (it : Item),
      classifyAll (splitPieces tmpl) = some items →
      items[i]? = some it →
      Item.is_wildcard it = true →
      i ≠ items.length - 1 →
      Path.parse method tmpl = some (.error .WildcardItemMustBeLast) := by
  intro method tmpl items i it hcl hget hw hne
  unfold Path.parse
  rw [hcl]
  have hall := classifyAll_validate _ _ hcl
  have hnotok := validateAux_not_ok items.length items 0 i it hall hget hw (by omega)
  rcases validateAux_ok_or items.length items 0 hall with hok | herr
  · exact absurd hok hnotok
  · simp [Path.validate, herr]

/-- Witness for C8 on the template /*a/b, whose wildcard is first of two. -/
theorem wildcard_must_be_last_witness :
    Path.parse sGET sPathStarAB = some (.error .WildcardItemMustBeLast) :=
  wildcard_must_be_last sGET sPathStarAB [Item.Wildcard sStarA, Item.Static sB] 0
    (Item.Wildcard sStarA) rfl rfl rfl (by decide)

/-- Claim C9: for a path all of whose segments are static, render succeeds
for every parameter mapping and emits the stored names joined by the
separator, exactly render_original. -/
theorem static_only_render_is_original :
    ∀ (p : Path) (params : RouteParameter),
      (∀ it ∈ p.items, Item.is_static it = true) →
      Path.render p params = .ok (Path.render_original p) := by
  intro p params h
  simp [Path.render, renderAux_static params p.items h, Path.render_original]

/-- Witness for C9 on the static path a/b with an unrelated parameter map. -/
theorem static_only_render_is_original_witness :
    Path.render pStatAB [(sX, sY)] = .ok (Path.render_original pStatAB) :=
  static_only_render_is_original pStatAB [(sX, sY)] (by decide)

/-- Claim C10: optimize never changes observable behavior: tree lookup,
router resolve and router link return the same results after optimize as
before, for every state and every input. -/
theorem optimize_preserves_observable :
    ∀ (T : Type) (t : Tree T) (rt : Router T) (method : Method) (path : String)
      (name : String) (params : RouteParameter),
      Tree.lookup (Tree.optimize t) method path = Tree.lookup t method path ∧
      Router.resolve (Router.optimize rt) method path = Router.resolve rt method path ∧
      Router.link (Router.optimize rt) name params = Router.link rt name params := by
  intro T t rt method path name params
  rw [tree_optimize_id, router_optimize_id]
  exact ⟨rfl, rfl, rfl⟩

end StarRouter
